import Mathlib

/-!
Verification development for the article data pipeline
(`src/cleaner.py` and `src/validator.py`).

The Python code is shallowly embedded: JSON-derived dynamic values become the
inductive type `JValue`, pure Python functions become Lean functions over it,
and the one place where the code can raise on malformed data
(`validator._is_present`, an attribute access on a non-dict) is modelled with
`Except`.  Calls into the Python standard library (`html.unescape`,
`re.sub` with the two concrete patterns of `clean_text`,
`datetime.fromisoformat`, `datetime.strptime` with the three concrete
formats, `str.strip`, `sorted`) are modelled by Lean functions whose doc
comments state exactly what fragment of the library behaviour they cover.
-/

namespace Pipeline

/-- JSON-like dynamic value as produced by `json.load`: Python `None`, `bool`,
`int`, `str`, `list`, `dict`.  JSON numbers are modelled as integers; the
claims under study never depend on float-valued fields. -/
inductive JValue where
  | null
  | bool (b : Bool)
  | int (n : Int)
  | str (s : String)
  | arr (xs : List JValue)
  | obj (kvs : List (String × JValue))
deriving Repr

/-- The ASCII apostrophe character. -/
def squote : Char := Char.ofNat 39

/-- The ASCII double-quote character. -/
def dquote : Char := Char.ofNat 34

/-- Model of Python `repr` on a `str`: quote with an apostrophe unless the
string contains an apostrophe and no double quote; escape the backslash, the
chosen quote, and newline / carriage-return / tab.  (CPython additionally
hex-escapes other non-printable characters; no claim below depends on the
repr of such strings.) -/
def pyreprStrChars (s : String) : List Char :=
  let hasQ := s.toList.contains squote
  let hasD := s.toList.contains dquote
  let q := if hasQ && !hasD then dquote else squote
  let esc := s.toList.foldr (fun c acc =>
    if c = '\\' then '\\' :: '\\' :: acc
    else if c = q then '\\' :: q :: acc
    else if c = '\n' then '\\' :: 'n' :: acc
    else if c = '\r' then '\\' :: 'r' :: acc
    else if c = '\t' then '\\' :: 't' :: acc
    else c :: acc) []
  q :: (esc ++ [q])

/-- Model of Python `repr` on a JSON-derived value. -/
def pyrepr : JValue → String
  | .null => "None"
  | .bool true => "True"
  | .bool false => "False"
  | .int n => toString n
  | .str s => String.mk (pyreprStrChars s)
  | .arr xs =>
      "[" ++ String.intercalate ", " (xs.attach.map (fun x => pyrepr x.1)) ++ "]"
  | .obj kvs =>
      "\x7b" ++
        String.intercalate ", "
          (kvs.attach.map (fun kv =>
            String.mk (pyreprStrChars kv.1.1) ++ ": " ++ pyrepr kv.1.2)) ++
        "\x7d"
decreasing_by
  · simp_wf
    have := List.sizeOf_lt_of_mem x.2
    omega
  · simp_wf
    have h := List.sizeOf_lt_of_mem kv.2
    rcases kv with ⟨⟨k, v⟩, hmem⟩
    simp at h ⊢
    omega

/-- Model of Python `str()` on a JSON-derived value (`str` of a container is
its `repr`; on the scalar values `str` and `repr` agree except for the
quoting of strings). -/
def pystr : JValue → String
  | .null => "None"
  | .bool true => "True"
  | .bool false => "False"
  | .int n => toString n
  | .str s => s
  | .arr xs => pyrepr (.arr xs)
  | .obj kvs => pyrepr (.obj kvs)

/-- Model of Python `dict.get(key)` without default: `none` when the key is
absent.  Python dict keys are unique, so first-match lookup is faithful. -/
def jget : List (String × JValue) → String → Option JValue
  | [], _ => none
  | (k, v) :: rest, key => if k = key then some v else jget rest key

/-- Model of Python `dict.get(key)` returning `None` when the key is absent. -/
def jgetD (kvs : List (String × JValue)) (key : String) : JValue :=
  (jget kvs key).getD .null

/-- Model of the character class recognised as whitespace both by Python
`str.strip()` / `str.isspace()` and by `re` `\s` on `str` patterns
(CPython `Py_UNICODE_ISSPACE`). -/
def isPySpace (c : Char) : Bool :=
  let n := c.toNat
  (9 ≤ n && n ≤ 13) || (28 ≤ n && n ≤ 31) || n == 32 || n == 0x85 || n == 0xA0 ||
    n == 0x1680 || (0x2000 ≤ n && n ≤ 0x200A) || n == 0x2028 || n == 0x2029 ||
    n == 0x202F || n == 0x205F || n == 0x3000

/-- Model of Python `str.strip()` on a character list. -/
def pyStripList (cs : List Char) : List Char :=
  ((cs.dropWhile isPySpace).reverse.dropWhile isPySpace).reverse

/-- Model of Python `str.strip()`. -/
def pyStripStr (s : String) : String := String.mk (pyStripList s.toList)

/-- The `INVISIBLE_TO_SPACE` tuple of `cleaner.py`: no-break space, zero width
space, zero width non-joiner, zero width joiner, BOM. -/
def INVISIBLE_TO_SPACE : List Char :=
  [Char.ofNat 0xA0, Char.ofNat 0x200B, Char.ofNat 0x200C, Char.ofNat 0x200D,
   Char.ofNat 0xFEFF]

/-- The chained `s.replace(char, " ")` loop of `clean_text`: each of the five
invisible characters (each a single code point) is replaced by a space. -/
def replaceInvisible (cs : List Char) : List Char :=
  cs.map (fun c => if INVISIBLE_TO_SPACE.contains c then ' ' else c)

/-- Finite table of named HTML character references used to model
`html.unescape`.  CPython's table (`html.entities.html5`) contains every HTML5
entity, with and without trailing semicolon for the HTML4-era names; this
model restricts it to the entities relevant to this pipeline's data.  The
matching algorithm below is the one CPython uses. -/
def namedCharrefs : List (String × String) :=
  [("amp;", "&"), ("amp", "&"),
   ("lt;", "<"), ("lt", "<"),
   ("gt;", ">"), ("gt", ">"),
   ("quot;", String.mk [dquote]), ("quot", String.mk [dquote]),
   ("nbsp;", String.mk [Char.ofNat 0xA0]), ("nbsp", String.mk [Char.ofNat 0xA0]),
   ("apos;", String.mk [squote]),
   ("copy;", "©"), ("copy", "©"),
   ("reg;", "®"), ("reg", "®"),
   ("trade;", "™")]

/-- Lookup of an exact entity name (with or without `;`) in the table. -/
def entityLookup (cs : List Char) : Option String :=
  (namedCharrefs.find? (fun p => p.1.toList == cs)).map (fun p => p.2)

/-- CPython `html._replace_charref` fallback: the longest prefix of the
matched name, of length at least 2, that is a known entity
(`for x in range(len(s)-1, 1, -1)`). -/
def longestEntityGo (cand : List Char) : Nat → Option (String × Nat)
  | 0 => none
  | n + 1 =>
    if n + 1 < 2 then none
    else
      match entityLookup (cand.take (n + 1)) with
      | some repl => some (repl, n + 1)
      | none => longestEntityGo cand n

/-- Characters allowed in a named reference by the `html.unescape` regex:
the complement of tab, LF, form feed, space, `<`, `&`, `#`, `;`. -/
def isNameChar (c : Char) : Bool :=
  !(c = Char.ofNat 9 || c = Char.ofNat 10 || c = Char.ofNat 12 || c = ' ' ||
    c = '<' || c = '&' || c = '#' || c = ';')

/-- Hexadecimal digit test (as in the `[0-9a-fA-F]` class). -/
def isHexDigitChar (c : Char) : Bool :=
  c.isDigit || ('a' ≤ c && c ≤ 'f') || ('A' ≤ c && c ≤ 'F')

/-- Value of a hexadecimal digit character. -/
def hexDigitVal (c : Char) : Nat :=
  if c.isDigit then c.toNat - 48
  else if 'a' ≤ c && c ≤ 'f' then c.toNat - 87
  else c.toNat - 55

/-- Value of a decimal digit character. -/
def digitVal (c : Char) : Nat := c.toNat - 48

/-- Accumulate a digit list in base `b`. -/
def digitsToNatBase (b : Nat) (val : Char → Nat) (ds : List Char) : Nat :=
  ds.foldl (fun acc c => acc * b + val c) 0

/-- CPython numeric character reference decoding, restricted: surrogates and
codepoints above U+10FFFF become U+FFFD as in CPython; the windows-1252
remapping of 0x80–0x9F and the removal set of invalid codepoints are not
modelled (no claim depends on references in those ranges). -/
def charFromRef (n : Nat) : List Char :=
  if (0xD800 ≤ n ∧ n ≤ 0xDFFF) ∨ 0x10FFFF < n then [Char.ofNat 0xFFFD]
  else [Char.ofNat n]

/-- Model of one attempted match of the `html.unescape` character-reference
regex `&(#[0-9]+;?|#[xX][0-9a-fA-F]+;?|[^\t\n\f <&#;]\x7b1,32\x7d;?)` at a
position just after an ampersand.  Returns the replacement text and the
number of characters consumed after the `&`; `none` when the regex does not
match at this ampersand. -/
def matchCharref (cs : List Char) : Option (List Char × Nat) :=
  match cs with
  | '#' :: rest =>
    (match rest with
     | x :: rest2 =>
       if x = 'x' ∨ x = 'X' then
         let ds := rest2.takeWhile isHexDigitChar
         if ds.isEmpty then none
         else
           let semi := (rest2.drop ds.length).head? = some ';'
           some (charFromRef (digitsToNatBase 16 hexDigitVal ds),
                 2 + ds.length + (if semi then 1 else 0))
       else
         let ds := rest.takeWhile Char.isDigit
         if ds.isEmpty then none
         else
           let semi := (rest.drop ds.length).head? = some ';'
           some (charFromRef (digitsToNatBase 10 digitVal ds),
                 1 + ds.length + (if semi then 1 else 0))
     | [] => none)
  | _ =>
    let nm := (cs.takeWhile isNameChar).take 32
    if nm.isEmpty then none
    else
      let semi := (cs.drop nm.length).head? = some ';'
      let cand := nm ++ (if semi then [';'] else [])
      match entityLookup cand with
      | some repl => some (repl.toList, cand.length)
      | none =>
        match longestEntityGo cand (cand.length - 1) with
        | some (repl, x) => some (repl.toList ++ cand.drop x, cand.length)
        | none => some ('&' :: cand, cand.length)

/-- Model of `html.unescape`: scan left to right; at each `&` attempt a
character-reference match, emit its replacement (not rescanned, as with
`re.sub`) and continue after the matched span.  The fuel argument makes the
recursion structural; every step consumes at least one character, so fuel
equal to the list length (as supplied by `unescapeGo`) never runs out and
the fuel-exhausted branch is unreachable. -/
def unescapeFuel : Nat → List Char → List Char
  | _, [] => []
  | 0, cs => cs
  | fuel + 1, c :: rest =>
    if c = '&' then
      match matchCharref rest with
      | some (repl, k) => repl ++ unescapeFuel fuel (rest.drop k)
      | none => c :: unescapeFuel fuel rest
    else c :: unescapeFuel fuel rest

/-- The `html.unescape` scan over a whole character list. -/
def unescapeGo (cs : List Char) : List Char := unescapeFuel cs.length cs

/-- Remainder of a character list after its first `>`, if any. -/
def afterGt : List Char → Option (List Char)
  | [] => none
  | c :: cs => if c = '>' then some cs else afterGt cs

/-- Given the characters following a `<`, the remainder after the span the
pattern `<[^>]+>` would consume from that `<`: the characters after the
first `>`, provided at least one non-`>` character stands before it.
`none` when the pattern does not match at this `<`. -/
def tagSpan : List Char → Option (List Char)
  | [] => none
  | r :: rs => if r = '>' then none else afterGt rs

/-- Model of `re.sub(r"<[^>]+>", "", s)`: at each `<` where the pattern
matches, the span through the first following `>` is removed; other
characters are kept.  This is the leftmost non-overlapping matching that
`re.sub` performs for this pattern.  Fuel as in `unescapeFuel`. -/
def stripTagsFuel : Nat → List Char → List Char
  | _, [] => []
  | 0, cs => cs
  | fuel + 1, c :: rest =>
    if c = '<' then
      match tagSpan rest with
      | some rem => stripTagsFuel fuel rem
      | none => c :: stripTagsFuel fuel rest
    else c :: stripTagsFuel fuel rest

/-- The tag-stripping scan over a whole character list. -/
def stripTags (cs : List Char) : List Char := stripTagsFuel cs.length cs

/-- Model of `re.sub(r"\s+", " ", s)`: every maximal run of whitespace
becomes a single ASCII space.  `inRun` records whether the previous
character belonged to a whitespace run whose space has already been
emitted. -/
def subWsGo (inRun : Bool) : List Char → List Char
  | [] => []
  | c :: cs =>
    if isPySpace c then
      if inRun then subWsGo true cs else ' ' :: subWsGo true cs
    else c :: subWsGo false cs

/-- Whitespace-run collapsing over a whole character list. -/
def subWs (cs : List Char) : List Char := subWsGo false cs

/-- The generator-filter of `clean_text` keeping `ord(c) >= 32` and tab, LF,
CR. -/
def keepNonCtrl (c : Char) : Bool :=
  32 ≤ c.toNat || c = Char.ofNat 9 || c = Char.ofNat 10 || c = Char.ofNat 13

/-- Removal of ASCII control characters except tab, LF, CR. -/
def stripCtrl (cs : List Char) : List Char := cs.filter keepNonCtrl

/-- Removal of DEL (0x7F). -/
def stripDel (cs : List Char) : List Char := cs.filter (fun c => c.toNat ≠ 127)

/-- The `clean_text` pipeline of `cleaner.py` on the character list of a
string: invisible-character replacement, entity decoding, tag stripping,
whitespace collapsing and stripping, control-character removal, DEL
removal — in that order. -/
def cleanTextList (cs : List Char) : List Char :=
  stripDel (stripCtrl (pyStripList (subWs (stripTags (unescapeGo
    (replaceInvisible cs))))))

/-- `clean_text` on an actual string. -/
def cleanTextStr (s : String) : String := String.mk (cleanTextList s.toList)

/-- `clean_text` of `cleaner.py`: returns `""` for `None` and every
non-string value. -/
def clean_text : JValue → String
  | .str s => cleanTextStr s
  | _ => ""

/-! Date parsing (`parse_date_to_iso` of `cleaner.py`). -/

/-- Gregorian leap year, as `datetime` uses. -/
def isLeapYear (y : Nat) : Bool := (y % 4 == 0 && y % 100 != 0) || y % 400 == 0

/-- Days in a month, as `datetime` validates. -/
def daysInMonth (y m : Nat) : Nat :=
  if m = 2 then (if isLeapYear y then 29 else 28)
  else if m = 4 ∨ m = 6 ∨ m = 9 ∨ m = 11 then 30 else 31

/-- An aware-or-naive `datetime` value: the timezone, when present, is a
sign (`true` for negative) and an absolute offset in seconds. -/
structure PyDateTime where
  year : Nat
  month : Nat
  day : Nat
  hour : Nat
  minute : Nat
  second : Nat
  micro : Nat
  tz : Option (Bool × Nat)
deriving Repr, DecidableEq

/-- The range checks the `datetime` constructor performs (`MINYEAR`/`MAXYEAR`,
calendar-valid day, field ranges, timezone offset strictly under 24 hours). -/
def validDateTime (d : PyDateTime) : Bool :=
  1 ≤ d.year && d.year ≤ 9999 && 1 ≤ d.month && d.month ≤ 12 &&
  1 ≤ d.day && d.day ≤ daysInMonth d.year d.month &&
  d.hour ≤ 23 && d.minute ≤ 59 && d.second ≤ 59 && d.micro ≤ 999999 &&
  (match d.tz with | none => true | some (_, off) => off < 86400)

/-- Parse exactly `n` decimal digits into a number, returning the remainder.
Models `int()` of an `n`-character all-digit slice; Python's `int()` also
tolerates signs and surrounding whitespace in a slice, which no claim below
exercises. -/
def parseNDigits (n : Nat) (cs : List Char) : Option (Nat × List Char) :=
  let ds := cs.take n
  if ds.length = n && ds.all Char.isDigit then
    some (digitsToNatBase 10 digitVal ds, cs.drop n)
  else none

/-- Consume one expected character. -/
def expectChar (c : Char) : List Char → Option (List Char)
  | x :: rest => if x = c then some rest else none
  | [] => none

/-- CPython `_parse_hh_mm_ss_ff` (the 3.10 grammar):
`HH[:MM[:SS[.fff|.ffffff]]]`, consuming the entire list; a three-digit
fraction is scaled to microseconds. -/
def parseHMSF (cs : List Char) : Option (Nat × Nat × Nat × Nat) :=
  match parseNDigits 2 cs with
  | none => none
  | some (h, r1) =>
    match r1 with
    | [] => some (h, 0, 0, 0)
    | ':' :: r2 =>
      match parseNDigits 2 r2 with
      | none => none
      | some (m, r3) =>
        match r3 with
        | [] => some (h, m, 0, 0)
        | ':' :: r4 =>
          match parseNDigits 2 r4 with
          | none => none
          | some (s, r5) =>
            match r5 with
            | [] => some (h, m, s, 0)
            | p :: fr =>
              if p = '.' then
                if fr.length = 3 && fr.all Char.isDigit then
                  some (h, m, s, 1000 * digitsToNatBase 10 digitVal fr)
                else if fr.length = 6 && fr.all Char.isDigit then
                  some (h, m, s, digitsToNatBase 10 digitVal fr)
                else none
              else none
        | _ => none
    | _ => none

/-- CPython `_parse_isoformat_time`: split at the first `-` (else first `+`),
parse the time part and, when a sign was found, a timezone part that must be
5, 8 or 15 characters long.  A fractional timezone offset's microseconds are
not retained (no claim depends on them). -/
def parseIsoTime (cs : List Char) :
    Option (Nat × Nat × Nat × Nat × Option (Bool × Nat)) :=
  if cs.length < 2 then none
  else
    let tzIdx := match cs.findIdx? (fun c => c = '-') with
      | some i => some i
      | none => cs.findIdx? (fun c => c = '+')
    match tzIdx with
    | none => (parseHMSF cs).map (fun (h, m, s, f) => (h, m, s, f, none))
    | some i =>
      match parseHMSF (cs.take i) with
      | none => none
      | some (h, m, s, f) =>
        let tzstr := cs.drop (i + 1)
        if tzstr.length = 5 ∨ tzstr.length = 8 ∨ tzstr.length = 15 then
          match parseHMSF tzstr with
          | none => none
          | some (th, tm, ts, _) =>
            some (h, m, s, f, some (cs.get? i = some '-', th * 3600 + tm * 60 + ts))
        else none

/-- Model of `datetime.fromisoformat` (the documented grammar of CPython
3.10 and below: `YYYY-MM-DD[*HH[:MM[:SS[.fff[fff]]]][±HH:MM[:SS[.ffffff]]]]`,
where the character at index 10 is ignored).  Every theorem below relies
only on behaviour this shares with the looser 3.11+ parser — chiefly the
rejection of strings whose month field is not two digits. -/
def fromisoformatModel (cs : List Char) : Option PyDateTime :=
  match parseNDigits 4 (cs.take 10) with
  | none => none
  | some (y, r1) =>
    match expectChar '-' r1 with
    | none => none
    | some r2 =>
      match parseNDigits 2 r2 with
      | none => none
      | some (mo, r3) =>
        match expectChar '-' r3 with
        | none => none
        | some r4 =>
          match parseNDigits 2 r4 with
          | none => none
          | some (d, r5) =>
            if r5 = [] then
              let tstr := cs.drop 11
              let core := if tstr.isEmpty then
                  some (0, 0, 0, 0, (none : Option (Bool × Nat)))
                else parseIsoTime tstr
              match core with
              | none => none
              | some (h, m, s, f, tz) =>
                let dt : PyDateTime := ⟨y, mo, d, h, m, s, f, tz⟩
                if validDateTime dt then some dt else none
            else none

/-- Zero-padded decimal rendering to width `w` (the `%0wd` of `strftime` /
`isoformat`): for `n < 10^w` the `w` digits of `n`; larger values print in
full, unpadded (every rendered field below is range-checked under `10^w`,
so the fallback is never reached there). -/
def padNum (w n : Nat) : List Char :=
  if n < 10 ^ w then
    (List.range w).reverse.map (fun i => Nat.digitChar (n / 10 ^ i % 10))
  else
    List.replicate (w - (Nat.toDigits 10 n).length) '0' ++ Nat.toDigits 10 n

/-- Offset rendering of `datetime.isoformat`: sign, `HH:MM`, and `:SS` only
when the seconds part is non-zero; a zero offset always renders as `+00:00`. -/
def renderOffset (tz : Bool × Nat) : List Char :=
  let neg := tz.1
  let off := tz.2
  (if neg && off ≠ 0 then '-' else '+') ::
    (padNum 2 (off / 3600) ++ ':' :: padNum 2 (off % 3600 / 60) ++
      (if off % 60 ≠ 0 then ':' :: padNum 2 (off % 60) else []))

/-- Model of `datetime.isoformat()`: `YYYY-MM-DDTHH:MM:SS`, microseconds when
non-zero, offset when aware. -/
def isoformatModel (d : PyDateTime) : List Char :=
  padNum 4 d.year ++ '-' :: padNum 2 d.month ++ '-' :: padNum 2 d.day ++ 'T' ::
  padNum 2 d.hour ++ ':' :: padNum 2 d.minute ++ ':' :: padNum 2 d.second ++
  (if d.micro ≠ 0 then '.' :: padNum 6 d.micro else []) ++
  (match d.tz with | none => [] | some tz => renderOffset tz)

/-- Python `s.replace("Z", "+00:00")`: every `Z` becomes `+00:00`. -/
def replaceZ : List Char → List Char
  | [] => []
  | c :: cs =>
    if c = 'Z' then '+' :: '0' :: '0' :: ':' :: '0' :: '0' :: replaceZ cs
    else c :: replaceZ cs

/-- First parse strategy of `parse_date_to_iso`:
`datetime.fromisoformat(s.replace("Z", "+00:00")).isoformat()`. -/
def tryIso (s : String) : Option String :=
  (fromisoformatModel (replaceZ s.toList)).map (fun d => String.mk (isoformatModel d))

/-- Abbreviated month names, the `%b` alternatives of `strptime` for the C
locale. -/
def monthAbbrevs : List String :=
  ["Jan", "Feb", "Mar", "Apr", "May", "Jun", "Jul", "Aug", "Sep", "Oct",
   "Nov", "Dec"]

/-- Full month names, the `%B` alternatives of `strptime` for the C locale. -/
def monthFulls : List String :=
  ["January", "February", "March", "April", "May", "June", "July", "August",
   "September", "October", "November", "December"]

/-- Case-insensitive match of one of the month names at the head of the
input (the `strptime` month alternation compiles with `re.IGNORECASE`; no
month name is a prefix of another, so alternation order is immaterial).
Returns the 1-based month number and the remainder. -/
def matchMonthGo (names : List String) (idx : Nat) (cs : List Char) :
    Option (Nat × List Char) :=
  match names with
  | [] => none
  | n :: rest =>
    let nl := n.toList.map Char.toLower
    if (cs.take nl.length).map Char.toLower = nl then some (idx, cs.drop nl.length)
    else matchMonthGo rest (idx + 1) cs

/-- Valid two-digit day per the `strptime` `%d` pattern
`3[01]|[12]\d|0[1-9]|[1-9]`. -/
def day2ok (v : Nat) : Bool := 1 ≤ v && v ≤ 31

/-- Valid one-digit day per `%d`. -/
def day1ok (v : Nat) : Bool := 1 ≤ v && v ≤ 9

/-- Valid two-digit hour per `%H` (`2[0-3]|[0-1]\d|\d`). -/
def hour2ok (v : Nat) : Bool := v ≤ 23

/-- Valid two-digit minute or second per `%M`/`%S` (`[0-5]\d|\d`). -/
def minsec2ok (v : Nat) : Bool := v ≤ 59

/-- One-digit numeric field: any digit. -/
def any1ok (_ : Nat) : Bool := true

/-- A two-digit-preferred numeric field with regex-style backtracking: try
the two-digit alternative (when its value is admissible), and on failure of
the rest of the pattern fall back to the one-digit alternative — exactly the
alternation semantics of the `strptime` field patterns. -/
def parseNum2or1 {α : Type} (ok2 ok1 : Nat → Bool) (cs : List Char)
    (k : Nat → List Char → Option α) : Option α :=
  (match cs with
   | a :: b :: rest =>
     if a.isDigit && b.isDigit && ok2 (digitVal a * 10 + digitVal b) then
       k (digitVal a * 10 + digitVal b) rest
     else none
   | _ => none) <|>
  (match cs with
   | a :: rest => if a.isDigit && ok1 (digitVal a) then k (digitVal a) rest else none
   | _ => none)

/-- Model of `datetime.strptime(s, "%Y-%b-%dT%H:%M:%S")` up to the final
range validation: the compiled pattern must match the entire input. -/
def parseYbdTHMS (cs : List Char) : Option (Nat × Nat × Nat × Nat × Nat × Nat) :=
  match parseNDigits 4 cs with
  | none => none
  | some (y, r1) =>
    match expectChar '-' r1 with
    | none => none
    | some r2 =>
      match matchMonthGo monthAbbrevs 1 r2 with
      | none => none
      | some (mo, r3) =>
        match expectChar '-' r3 with
        | none => none
        | some r4 =>
          parseNum2or1 day2ok day1ok r4 (fun d r5 =>
            match expectChar 'T' r5 with
            | none => none
            | some r6 =>
              parseNum2or1 hour2ok any1ok r6 (fun h r7 =>
                match expectChar ':' r7 with
                | none => none
                | some r8 =>
                  parseNum2or1 minsec2ok any1ok r8 (fun mi r9 =>
                    match expectChar ':' r9 with
                    | none => none
                    | some r10 =>
                      parseNum2or1 minsec2ok any1ok r10 (fun sec r11 =>
                        if r11 = [] then some (y, mo, d, h, mi, sec) else none))))

/-- `datetime.strptime(s, "%Y-%b-%dT%H:%M:%S")` including the `datetime`
constructor's validation. -/
def strptimeYbdTHMS (cs : List Char) : Option PyDateTime :=
  match parseYbdTHMS cs with
  | none => none
  | some (y, mo, d, h, mi, sec) =>
    let dt : PyDateTime := ⟨y, mo, d, h, mi, sec, 0, none⟩
    if validDateTime dt then some dt else none

/-- The fixed `"%Y-%m-%dT%H:%M:%S"` rendering of `strftime`.  `%Y` is
zero-padded here; CPython delegates `%Y` to the platform and glibc does not
pad years below 1000, so every theorem below keeps years at or above 1000,
where the two agree. -/
def strftimeIso (dt : PyDateTime) : List Char :=
  padNum 4 dt.year ++ '-' :: padNum 2 dt.month ++ '-' :: padNum 2 dt.day ++ 'T' ::
  padNum 2 dt.hour ++ ':' :: padNum 2 dt.minute ++ ':' :: padNum 2 dt.second

/-- Second parse strategy of `parse_date_to_iso`: `strptime` of the first 20
characters with `"%Y-%b-%dT%H:%M:%S"`, then the timezone-suffix
reconstruction
`iso += s[20:26] if len(s) > 25 and s[23] == ":" else s[20:23] + ":" + s[23:25]`
guarded by `len(s) > 20 and s[20] in "-+" and len(s) >= 26`. -/
def tryMonthAbbrev (s : String) : Option String :=
  (strptimeYbdTHMS (s.toList.take 20)).map (fun dt =>
    let cs := s.toList
    let iso := strftimeIso dt
    let iso2 :=
      if 26 ≤ cs.length ∧ (cs.get? 20 = some '+' ∨ cs.get? 20 = some '-') then
        iso ++ (if 25 < cs.length ∧ cs.get? 23 = some ':'
                then (cs.drop 20).take 6
                else (cs.drop 20).take 3 ++ ':' :: (cs.drop 23).take 2)
      else iso
    String.mk iso2)

/-- The canonical 20-character `YYYY-Mon-DDTHH:MM:SS` character list with the
given field values: the input family of the spec's second date-parse
strategy. -/
def monthStampChars (y mo d h mi sec : Nat) : List Char :=
  padNum 4 y ++ '-' :: (monthAbbrevs.getD mo "").toList ++ '-' :: padNum 2 d ++
  'T' :: padNum 2 h ++ ':' :: padNum 2 mi ++ ':' :: padNum 2 sec

/-- One or more whitespace characters, greedily consumed: what a literal
space in a `strptime` format matches (`_strptime` rewrites whitespace runs
in the format to `\s+`). -/
def expectSpaces : List Char → Option (List Char)
  | c :: rest => if isPySpace c then some (rest.dropWhile isPySpace) else none
  | [] => none

/-- Model of `strptime` with `"%b. %d, %Y"` (`dot = true`) or
`"%B %d, %Y"` (`dot = false`), including the `datetime` validation. -/
def parseBdY (names : List String) (dot : Bool) (cs : List Char) :
    Option PyDateTime :=
  match matchMonthGo names 1 cs with
  | none => none
  | some (mo, r1) =>
    match (if dot then expectChar '.' r1 else some r1) with
    | none => none
    | some r2 =>
      match expectSpaces r2 with
      | none => none
      | some r3 =>
        parseNum2or1 day2ok day1ok r3 (fun d r4 =>
          match expectChar ',' r4 with
          | none => none
          | some r5 =>
            match expectSpaces r5 with
            | none => none
            | some r6 =>
              match parseNDigits 4 r6 with
              | none => none
              | some (y, r7) =>
                if r7 = [] then
                  let dt : PyDateTime := ⟨y, mo, d, 0, 0, 0, 0, none⟩
                  if validDateTime dt then some dt else none
                else none)

/-- The `re.sub(r"^Updated\s+", "", s, flags=re.IGNORECASE)` removal. -/
def removeUpdated (cs : List Char) : List Char :=
  if ((cs.take 7).map Char.toLower == "updated".toList) &&
     (match cs.drop 7 with | c :: _ => isPySpace c | [] => false) then
    (cs.drop 7).dropWhile isPySpace
  else cs

/-- Third and fourth parse strategies of `parse_date_to_iso`: for each of
`prefix_removed` (the `Updated`-stripped, re-stripped input) and `s`, try
`"%b. %d, %Y"` and then `"%B %d, %Y"`, emitting
`dt.strftime("%Y-%m-%dT%H:%M:%S")` on the first success. -/
def tryUpdatedStyle (s : String) : Option String :=
  let cs := s.toList
  let pr := pyStripList (removeUpdated cs)
  let render := fun (dt : PyDateTime) => String.mk (strftimeIso dt)
  match parseBdY monthAbbrevs true pr with
  | some dt => some (render dt)
  | none =>
    match parseBdY monthFulls false pr with
    | some dt => some (render dt)
    | none =>
      match parseBdY monthAbbrevs true cs with
      | some dt => some (render dt)
      | none => (parseBdY monthFulls false cs).map render

/-- `parse_date_to_iso` of `cleaner.py`: `""` for non-strings, the empty
string and blank-after-strip strings; otherwise the first successful
strategy's output, or `""` when all fail.  The `try`/`except` around each
strategy is modelled by the strategies returning `Option`. -/
def parse_date_to_iso (v : JValue) : String :=
  match v with
  | .str s0 =>
    if s0 = "" then ""
    else if pyStripStr s0 = "" then ""
    else
      match tryIso (pyStripStr s0) with
      | some out => out
      | none =>
        match tryMonthAbbrev (pyStripStr s0) with
        | some out => out
        | none =>
          match tryUpdatedStyle (pyStripStr s0) with
          | some out => out
          | none => ""
  | _ => ""


/-! Record and batch cleaning (`clean_article` and `clean` of `cleaner.py`). -/

/-- `clean_article` of `cleaner.py`: a non-dict passes through unchanged; for
a dict, `url` is `""` when `None`/absent, cleaned when a string, and
`str()`-coerced otherwise; `title` and `content` go through `clean_text`;
`published` goes through `parse_date_to_iso` when a string and becomes `""`
otherwise. -/
def clean_article (article : JValue) : JValue :=
  match article with
  | .obj kvs =>
    let url : String :=
      match jget kvs "url" with
      | none => ""
      | some .null => ""
      | some (.str s) => cleanTextStr s
      | some v => pystr v
    let title := clean_text (jgetD kvs "title")
    let content := clean_text (jgetD kvs "content")
    let published : String :=
      match jget kvs "published" with
      | some (.str s) => parse_date_to_iso (.str s)
      | _ => ""
    .obj [("url", .str url), ("title", .str title), ("content", .str content),
          ("published", .str published)]
  | v => v

/-- `clean` of `cleaner.py`: a non-dict passes through; `generated_at` is
`str()`-coerced when not a string (empty for `None`/absent), then cleaned
with the original kept when cleaning yields `""` (the `or` fallback);
`articles` defaults to `[]` when missing or not a list and is mapped through
`clean_article`. -/
def clean (data : JValue) : JValue :=
  match data with
  | .obj kvs =>
    let g : String :=
      match jget kvs "generated_at" with
      | none => ""
      | some .null => ""
      | some (.str s) => s
      | some v => pystr v
    let articles : List JValue :=
      match jget kvs "articles" with
      | some (.arr l) => l
      | _ => []
    .obj [("generated_at", .str (if cleanTextStr g = "" then g else cleanTextStr g)),
          ("articles", .arr (articles.map clean_article))]
  | v => v

/-! The validator (`src/validator.py`).  `_is_present` performs
`record.get(key)` and therefore raises `AttributeError` when the record is
not a dict; that fallible step is modelled with `Except Unit`. -/

/-- `_strip` of `validator.py`: `""` for `None`, `value.strip()` for a
string, `str(value).strip()` otherwise. -/
def pyStrip_ (v : JValue) : String :=
  match v with
  | .null => ""
  | .str s => pyStripStr s
  | v => pyStripStr (pystr v)

/-- Model of Python `str.startswith`. -/
def pyStartsWith (s pat : String) : Bool := pat.toList.isPrefixOf s.toList

/-- The `errors` list accumulated by `validate_record` for a dict record:
the five reason codes in evaluation order. -/
def validateErrors (kvs : List (String × JValue)) : List String :=
  (if pyStrip_ (jgetD kvs "title") = "" then ["missing_title"] else []) ++
  (if pyStrip_ (jgetD kvs "content") = "" then ["missing_content"] else []) ++
  (if pyStrip_ (jgetD kvs "url") = "" then ["missing_url"] else []) ++
  (if pyStrip_ (jgetD kvs "url") ≠ "" ∧
      ¬(pyStartsWith (pyStrip_ (jgetD kvs "url")) "http://" ∨
        pyStartsWith (pyStrip_ (jgetD kvs "url")) "https://")
   then ["invalid_url"] else []) ++
  (if pyStrip_ (jgetD kvs "content") ≠ "" ∧
      (pyStrip_ (jgetD kvs "content")).length < 50
   then ["content_too_short"] else [])

/-- `validate_record` of `validator.py`: a non-dict yields
`(False, ["invalid_record"])`; the verdict is `True` iff no reason fired. -/
def validate_record (record : JValue) : Bool × List String :=
  match record with
  | .obj kvs => ((validateErrors kvs).isEmpty, validateErrors kvs)
  | _ => (false, ["invalid_record"])

/-- `_is_present` of `validator.py`: `bool(_strip(record.get(key)))`.  On a
non-dict record `record.get` raises `AttributeError`, modelled as
`Except.error ()`. -/
def isPresent_ (record : JValue) (key : String) : Except Unit Bool :=
  match record with
  | .obj kvs => .ok (!(pyStrip_ (jgetD kvs key) == ""))
  | _ => .error ()

/-- The aggregate statistics `validate` accumulates.  The four completeness
percentages of the Python report are computed from these counts with
float division and `round` and are not part of this structure. -/
structure Report where
  total_records : Nat
  valid_count : Nat
  invalid_count : Nat
  title_present_count : Nat
  content_present_count : Nat
  url_present_count : Nat
  date_present_count : Nat
  error_counts : List (String × Nat)
deriving Repr, DecidableEq

/-- `Counter[e] += 1`: increment an existing key or append it with count 1
(Python dicts preserve insertion order). -/
def tallyKey (m : List (String × Nat)) (k : String) : List (String × Nat) :=
  match m with
  | [] => [(k, 1)]
  | (k0, n) :: rest =>
    if k0 = k then (k0, n + 1) :: rest else (k0, n) :: tallyKey rest k

/-- One iteration of `validate`'s loop: the four `_is_present` tallies (which
raise on a non-dict record), then `validate_record` and the valid/invalid
and failure-histogram tallies. -/
def validateStep (acc : Report) (record : JValue) : Except Unit Report := do
  let tp ← isPresent_ record "title"
  let cp ← isPresent_ record "content"
  let up ← isPresent_ record "url"
  let dp ← isPresent_ record "published"
  let v := validate_record record
  pure { acc with
    title_present_count := acc.title_present_count + (if tp then 1 else 0),
    content_present_count := acc.content_present_count + (if cp then 1 else 0),
    url_present_count := acc.url_present_count + (if up then 1 else 0),
    date_present_count := acc.date_present_count + (if dp then 1 else 0),
    valid_count := acc.valid_count + (if v.1 then 1 else 0),
    invalid_count := acc.invalid_count + (if v.1 then 0 else 1),
    error_counts := if v.1 then acc.error_counts else v.2.foldl tallyKey acc.error_counts }

/-- `validate` of `validator.py`: `articles` defaults to `[]` when absent or
not a list; the loop folds `validateStep` over the records.  A non-dict
`data` would raise at `data.get`, modelled as an error. -/
def validate (data : JValue) : Except Unit Report :=
  match data with
  | .obj kvs =>
    let articles : List JValue :=
      match jget kvs "articles" with
      | some (.arr l) => l
      | _ => []
    articles.foldlM validateStep
      { total_records := articles.length, valid_count := 0, invalid_count := 0,
        title_present_count := 0, content_present_count := 0,
        url_present_count := 0, date_present_count := 0, error_counts := [] }
  | _ => .error ()

/-- The sort key of `write_report`:
`sorted(error_counts.items(), key=lambda x: (-x[1], x[0]))`, i.e. count
descending, then reason code ascending (Python compares strings by code
point, as `String.le` does). -/
def errLe (a b : String × Nat) : Bool := b.2 < a.2 || (a.2 == b.2 && a.1 ≤ b.1)

/-- The sorted failure rows of `write_report`.  Python's `sorted` is a
stable sort; the keys here are totally ordered, so any sorting algorithm
agreeing with `errLe` produces the same list up to equal elements. -/
def sortErrors (l : List (String × Nat)) : List (String × Nat) := l.mergeSort errLe

/-- The rendered failure lines `f"{code}: {count}"` of `write_report`, in
render order.  The fixed header and the float percentage lines above them
are not modelled (file output and float formatting). -/
def failureRows (l : List (String × Nat)) : List String :=
  (sortErrors l).map (fun p => p.1 ++ ": " ++ toString p.2)

/-- The `articles` list of a batch value, as `validate` and `clean` read it. -/
def getArticles (v : JValue) : List JValue :=
  match v with
  | .obj kvs =>
    match jget kvs "articles" with
    | some (.arr l) => l
    | _ => []
  | _ => []

/-! Sanity evaluations of the embedding on the concrete inputs named in the
spec. -/

example : cleanTextStr "  <b>Hi</b>&nbsp;there  " = "Hi there" := by decide

example : parse_date_to_iso (.str "not a date") = "" := by decide

example : parse_date_to_iso (.str "2026-02-02T02:30:50Z") =
    "2026-02-02T02:30:50+00:00" := by decide

example : clean_article (.obj [("title", .str "  <b>Hi</b>&nbsp;there  "),
    ("content", .str "short"), ("url", .int 123),
    ("published", .str "2026-Feb-01T13:28:27-05:00")]) =
    .obj [("url", .str "123"), ("title", .str "Hi there"),
          ("content", .str "short"),
          ("published", .str "2026-02-01T13:28:27-05:00")] := by rfl

example : validate_record (.obj [("title", .str "Hi there"),
    ("content", .str "short"), ("url", .str "123")]) =
    (false, ["invalid_url", "content_too_short"]) := by decide

/-! The claims. -/

/-- C1: the spec states that `validate` processes a batch containing
non-mapping articles without raising, tallying each one as
`invalid_record`.  `validate_record` indeed classifies a non-mapping as
`invalid_record`, but `validate`'s loop first calls `_is_present`, which
evaluates `record.get(key)` and raises `AttributeError` on a non-mapping —
so `validate` raises before any tally happens. -/
theorem C1_validate_raises_on_non_mapping_article :
    validate_record (.str "hello") = (false, ["invalid_record"]) ∧
    validate (.obj [("articles", .arr [.str "hello"])]) = .error () := by
  constructor
  · rfl
  · rfl

/-- C2 counterexample: for the month-abbreviation input
`"2026-Feb-01T13:28:27+0500"` — whose timezone suffix is a bare `HHMM`
offset, making the whole input 25 characters — `parse_date_to_iso` emits
`"2026-02-01T13:28:27"`, dropping the offset instead of reconstructing
`+05:00` as the claim states (the guard `len(s) >= 26` fails at length 25). -/
theorem C2_counterexample_bare_offset_dropped :
    parse_date_to_iso (.str "2026-Feb-01T13:28:27+0500") = "2026-02-01T13:28:27" ∧
    parse_date_to_iso (.str "2026-Feb-01T13:28:27+0500") ≠
      "2026-02-01T13:28:27+05:00" := by
  constructor
  · decide
  · decide

/-- C3 counterexample: `clean_text` is not idempotent.  For
`"&amp;amp;"` the first pass decodes the leading `&amp;` to `&`, producing
`"&amp;"`; a second pass decodes again, producing `"&"`. -/
theorem C3_counterexample_not_idempotent :
    cleanTextStr (cleanTextStr "&amp;amp;") ≠ cleanTextStr "&amp;amp;" ∧
    cleanTextStr "&amp;amp;" = "&amp;" ∧
    cleanTextStr (cleanTextStr "&amp;amp;") = "&" := by
  refine ⟨?_, ?_, ?_⟩ <;> decide

/-- C3 amended: `clean_text` is idempotent on every string whose cleaned
form is left unchanged by each individual cleaning stage (in particular, by
a second entity decoding); the unrestricted claim fails, e.g. at
`"&amp;amp;"`. -/
theorem C3_clean_text_idempotent_on_stage_fixed (s : String)
    (h1 : replaceInvisible (cleanTextList s.toList) = cleanTextList s.toList)
    (h2 : unescapeGo (cleanTextList s.toList) = cleanTextList s.toList)
    (h3 : stripTags (cleanTextList s.toList) = cleanTextList s.toList)
    (h4 : subWs (cleanTextList s.toList) = cleanTextList s.toList)
    (h5 : pyStripList (cleanTextList s.toList) = cleanTextList s.toList)
    (h6 : stripCtrl (cleanTextList s.toList) = cleanTextList s.toList)
    (h7 : stripDel (cleanTextList s.toList) = cleanTextList s.toList) :
    cleanTextStr (cleanTextStr s) = cleanTextStr s := by
  have key : cleanTextList (cleanTextList s.toList) = cleanTextList s.toList := by
    calc cleanTextList (cleanTextList s.toList)
        = stripDel (stripCtrl (pyStripList (subWs (stripTags (unescapeGo
            (replaceInvisible (cleanTextList s.toList))))))) := rfl
      _ = cleanTextList s.toList := by rw [h1, h2, h3, h4, h5, h6, h7]
  show String.mk (cleanTextList (String.mk (cleanTextList s.toList)).toList) =
    String.mk (cleanTextList s.toList)
  exact congrArg String.mk key

/-- C3 witness: a concrete string on which the stage-fixedness hypotheses
hold and idempotence follows. -/
theorem C3_witness :
    cleanTextStr (cleanTextStr "a  b &amp; c") = cleanTextStr "a  b &amp; c" :=
  C3_clean_text_idempotent_on_stage_fixed "a  b &amp; c"
    (by decide) (by decide) (by decide) (by decide) (by decide) (by decide)
    (by decide)

/-- C4: `parse_date_to_iso` is modelled as a total function (each Python
parse strategy's exceptions are caught, which the `Option`-valued strategy
models make structural); it returns exactly `""` for every non-string
value, for every string that is blank after stripping, and whenever all
three strategies fail. -/
theorem C4_parse_date_total_and_empty_on_failure :
    (∀ v : JValue, (∀ s, v ≠ .str s) → parse_date_to_iso v = "") ∧
    (∀ s0 : String, pyStripStr s0 = "" → parse_date_to_iso (.str s0) = "") ∧
    (∀ s0 : String, tryIso (pyStripStr s0) = none →
      tryMonthAbbrev (pyStripStr s0) = none →
      tryUpdatedStyle (pyStripStr s0) = none → parse_date_to_iso (.str s0) = "") := by
  refine ⟨?_, ?_, ?_⟩
  · intro v hv
    cases v with
    | str s => exact absurd rfl (hv s)
    | null => rfl
    | bool b => rfl
    | int n => rfl
    | arr xs => rfl
    | obj kvs => rfl
  · intro s0 h
    by_cases h0 : s0 = ""
    · simp [parse_date_to_iso, h0]
    · simp [parse_date_to_iso, h0, h]
  · intro s0 h1 h2 h3
    by_cases h0 : s0 = ""
    · simp [parse_date_to_iso, h0]
    · by_cases hs : pyStripStr s0 = ""
      · simp [parse_date_to_iso, h0, hs]
      · simp [parse_date_to_iso, h0, hs, h1, h2, h3]

/-- C4 witness: the three parts applied at concrete inputs: a non-string, a
blank string, and `"not a date"` (on which every strategy fails). -/
theorem C4_witness :
    parse_date_to_iso (.int 5) = "" ∧
    parse_date_to_iso (.str "   ") = "" ∧
    parse_date_to_iso (.str "not a date") = "" :=
  ⟨C4_parse_date_total_and_empty_on_failure.1 (.int 5) (fun s h => by cases h),
   C4_parse_date_total_and_empty_on_failure.2.1 "   " (by decide),
   C4_parse_date_total_and_empty_on_failure.2.2 "not a date"
     (by decide) (by decide) (by decide)⟩

/-- C5: for every mapping input, `clean_article` (a total function — the
embedding of code that never raises) returns a mapping with exactly the four
keys `url`, `title`, `content`, `published`, each holding a string. -/
theorem C5_clean_article_shape (kvs : List (String × JValue)) :
    ∃ u t c p : String, clean_article (.obj kvs) =
      .obj [("url", .str u), ("title", .str t), ("content", .str c),
            ("published", .str p)] :=
  ⟨_, _, _, _, rfl⟩

/-- C6: when a batch's `articles` field is a list, `clean` maps
`clean_article` over it elementwise: the output articles list has the same
length and its `i`-th element is the cleaned `i`-th input element. -/
theorem C6_clean_preserves_count_and_order (kvs : List (String × JValue))
    (l : List JValue) (h : jget kvs "articles" = some (.arr l)) :
    getArticles (clean (.obj kvs)) = l.map clean_article ∧
    (getArticles (clean (.obj kvs))).length = l.length ∧
    ∀ i : Nat, i < l.length →
      (getArticles (clean (.obj kvs))).get? i = (l.get? i).map clean_article := by
  have harts : getArticles (clean (.obj kvs)) = l.map clean_article := by
    simp [clean, getArticles, jget, h]
  refine ⟨harts, ?_, ?_⟩
  · rw [harts]; simp
  · intro i hi
    rw [harts]
    simp [List.get?_eq_getElem?, List.getElem?_map]

/-- C6 witness: a concrete two-record batch. -/
theorem C6_witness :
    getArticles (clean (.obj [("articles", .arr [.str "x", .obj []])])) =
      [.str "x", .obj []].map clean_article ∧
    (getArticles (clean (.obj [("articles", .arr [.str "x", .obj []])]))).length =
      ([JValue.str "x", .obj []]).length ∧
    ∀ i : Nat, i < ([JValue.str "x", .obj []]).length →
      (getArticles (clean (.obj [("articles", .arr [.str "x", .obj []])]))).get? i =
        (([JValue.str "x", .obj []]).get? i).map clean_article :=
  C6_clean_preserves_count_and_order [("articles", .arr [.str "x", .obj []])]
    [.str "x", .obj []] rfl

/-- C8: `write_report` renders the failure rows sorted by descending count,
with ties broken by ascending code-point order of the reason code: the
rendered rows are the rows of `sortErrors`, which is a permutation of the
histogram whose adjacent pairs all satisfy that order. -/
theorem C8_report_rows_sorted (l : List (String × Nat)) :
    failureRows l = (sortErrors l).map (fun p => p.1 ++ ": " ++ toString p.2) ∧
    (sortErrors l).Perm l ∧
    List.Pairwise (fun a b : String × Nat =>
      b.2 < a.2 ∨ (a.2 = b.2 ∧ a.1 ≤ b.1)) (sortErrors l) := by
  refine ⟨rfl, List.mergeSort_perm l errLe, ?_⟩
  have htrans : ∀ a b c : String × Nat,
      errLe a b = true → errLe b c = true → errLe a c = true := by
    intro a b c hab hbc
    simp [errLe] at hab hbc ⊢
    rcases hab with hab | ⟨hab1, hab2⟩ <;> rcases hbc with hbc | ⟨hbc1, hbc2⟩
    · exact Or.inl (by omega)
    · exact Or.inl (by omega)
    · exact Or.inl (by omega)
    · exact Or.inr ⟨hab1.trans hbc1, le_trans hab2 hbc2⟩
  have htot : ∀ a b : String × Nat, (errLe a b || errLe b a) = true := by
    intro a b
    rcases Nat.lt_trichotomy a.2 b.2 with h | h | h
    · have hb : errLe b a = true := by simp [errLe, h]
      simp [hb]
    · rcases le_total a.1 b.1 with h1 | h1
      · have ha : errLe a b = true := by
          simp [errLe, h]
          simpa using h1
        simp [ha]
      · have hb : errLe b a = true := by
          simp [errLe, h]
          simpa using h1
        simp [hb]
    · have ha : errLe a b = true := by simp [errLe, h]
      simp [ha]
  have hs := List.sorted_mergeSort htrans htot l
  refine hs.imp ?_
  intro a b hab
  simpa [errLe] using hab

/-- C9: `validate_record` never reports both `missing_url` and
`invalid_url`, nor both `missing_content` and `content_too_short`, on the
same mapping record: the `invalid_url` and `content_too_short` rules fire
only when the respective stripped field is non-empty. -/
theorem C9_reason_pairs_mutually_exclusive (kvs : List (String × JValue)) :
    ¬("missing_url" ∈ (validate_record (.obj kvs)).2 ∧
      "invalid_url" ∈ (validate_record (.obj kvs)).2) ∧
    ¬("missing_content" ∈ (validate_record (.obj kvs)).2 ∧
      "content_too_short" ∈ (validate_record (.obj kvs)).2) := by
  constructor
  · rintro ⟨h1, h2⟩
    by_cases hu : pyStrip_ (jgetD kvs "url") = ""
    · simp [validate_record, validateErrors, hu] at h2
    · simp [validate_record, validateErrors, hu] at h1
  · rintro ⟨h1, h2⟩
    by_cases hc : pyStrip_ (jgetD kvs "content") = ""
    · simp [validate_record, validateErrors, hc] at h2
    · simp [validate_record, validateErrors, hc] at h1

/-- One loop iteration of `validate` on a mapping record succeeds and
produces the expected pure update. -/
theorem validateStep_obj (acc : Report) (m : List (String × JValue)) :
    validateStep acc (.obj m) = .ok
      { acc with
        title_present_count :=
          acc.title_present_count + (if !(pyStrip_ (jgetD m "title") == "") then 1 else 0),
        content_present_count :=
          acc.content_present_count + (if !(pyStrip_ (jgetD m "content") == "") then 1 else 0),
        url_present_count :=
          acc.url_present_count + (if !(pyStrip_ (jgetD m "url") == "") then 1 else 0),
        date_present_count :=
          acc.date_present_count + (if !(pyStrip_ (jgetD m "published") == "") then 1 else 0),
        valid_count :=
          acc.valid_count + (if (validate_record (.obj m)).1 then 1 else 0),
        invalid_count :=
          acc.invalid_count + (if (validate_record (.obj m)).1 then 0 else 1),
        error_counts :=
          if (validate_record (.obj m)).1 then acc.error_counts
          else (validate_record (.obj m)).2.foldl tallyKey acc.error_counts } := rfl

/-- The fold of `validate` over a list of mapping records succeeds and
classifies each record exactly once. -/
theorem validate_fold_invariant (l : List JValue) :
    ∀ acc : Report, (∀ a ∈ l, ∃ m, a = JValue.obj m) →
    ∃ r : Report, List.foldlM validateStep acc l = .ok r ∧
      r.valid_count + r.invalid_count =
        acc.valid_count + acc.invalid_count + l.length ∧
      r.total_records = acc.total_records := by
  induction l with
  | nil => exact fun acc _ => ⟨acc, rfl, by simp, rfl⟩
  | cons a rest ih =>
    intro acc h
    obtain ⟨m, rfl⟩ := h a (by simp)
    obtain ⟨r, hr, hsum, htot⟩ := ih
      { acc with
        title_present_count :=
          acc.title_present_count + (if !(pyStrip_ (jgetD m "title") == "") then 1 else 0),
        content_present_count :=
          acc.content_present_count + (if !(pyStrip_ (jgetD m "content") == "") then 1 else 0),
        url_present_count :=
          acc.url_present_count + (if !(pyStrip_ (jgetD m "url") == "") then 1 else 0),
        date_present_count :=
          acc.date_present_count + (if !(pyStrip_ (jgetD m "published") == "") then 1 else 0),
        valid_count :=
          acc.valid_count + (if (validate_record (.obj m)).1 then 1 else 0),
        invalid_count :=
          acc.invalid_count + (if (validate_record (.obj m)).1 then 0 else 1),
        error_counts :=
          if (validate_record (.obj m)).1 then acc.error_counts
          else (validate_record (.obj m)).2.foldl tallyKey acc.error_counts }
      (fun x hx => h x (by simp [hx]))
    refine ⟨r, ?_, ?_, ?_⟩
    · exact hr
    · rw [hsum]
      by_cases hv : (validate_record (.obj m)).1 <;> simp [hv] <;> omega
    · exact htot

/-- C10: for a batch whose articles are all mappings, `validate` succeeds
and its report satisfies `valid_count + invalid_count = total_records`,
with `total_records` the length of the articles list. -/
theorem C10_valid_plus_invalid_eq_total (kvs : List (String × JValue))
    (l : List JValue) (h : jget kvs "articles" = some (.arr l))
    (hm : ∀ a ∈ l, ∃ m, a = JValue.obj m) :
    ∃ r : Report, validate (.obj kvs) = .ok r ∧
      r.valid_count + r.invalid_count = r.total_records ∧
      r.total_records = l.length := by
  obtain ⟨r, hr, hsum, htot⟩ := validate_fold_invariant l
    { total_records := l.length, valid_count := 0, invalid_count := 0,
      title_present_count := 0, content_present_count := 0,
      url_present_count := 0, date_present_count := 0, error_counts := [] } hm
  have hval : validate (.obj kvs) = List.foldlM validateStep
      { total_records := l.length, valid_count := 0, invalid_count := 0,
        title_present_count := 0, content_present_count := 0,
        url_present_count := 0, date_present_count := 0, error_counts := [] } l := by
    simp only [validate, h]
  refine ⟨r, ?_, ?_, ?_⟩
  · rw [hval]; exact hr
  · rw [hsum, htot]; simp
  · rw [htot]

/-- C10 witness: a concrete batch of two mapping records. -/
theorem C10_witness :
    ∃ r : Report,
      validate (.obj [("articles", .arr [.obj [("title", .str "t")], .obj []])]) =
        .ok r ∧
      r.valid_count + r.invalid_count = r.total_records ∧
      r.total_records = 2 :=
  C10_valid_plus_invalid_eq_total
    [("articles", .arr [.obj [("title", .str "t")], .obj []])]
    [.obj [("title", .str "t")], .obj []] rfl
    (by rintro a ha
        simp at ha
        rcases ha with rfl | rfl
        · exact ⟨_, rfl⟩
        · exact ⟨_, rfl⟩)

/-! Lemma kit for the amended C2 theorem: symbolic evaluation of the date
parser on the canonical month-abbreviation family. -/

theorem digitChar_isDigit {n : Nat} (h : n < 10) :
    (Nat.digitChar n).isDigit = true := by
  interval_cases n <;> decide

theorem digitVal_digitChar {n : Nat} (h : n < 10) :
    digitVal (Nat.digitChar n) = n := by
  interval_cases n <;> decide

theorem isPySpace_digitChar {n : Nat} (h : n < 10) :
    isPySpace (Nat.digitChar n) = false := by
  interval_cases n <;> decide

theorem digitChar_ne_Z {n : Nat} (h : n < 10) : Nat.digitChar n ≠ 'Z' := by
  interval_cases n <;> decide

theorem padNum2_eq {n : Nat} (h : n < 100) :
    padNum 2 n = [Nat.digitChar (n / 10), Nat.digitChar (n % 10)] := by
  unfold padNum
  rw [if_pos (show n < 10 ^ 2 by omega)]
  show [Nat.digitChar (n / 10 ^ 1 % 10), Nat.digitChar (n / 10 ^ 0 % 10)] = _
  have h1 : n / 10 ^ 1 % 10 = n / 10 := by
    have e : (10 : Nat) ^ 1 = 10 := by norm_num
    rw [e]; omega
  have h0 : n / 10 ^ 0 % 10 = n % 10 := by
    have e : (10 : Nat) ^ 0 = 1 := by norm_num
    rw [e, Nat.div_one]
  rw [h1, h0]

theorem padNum4_eq {n : Nat} (h : n < 10000) :
    padNum 4 n = [Nat.digitChar (n / 1000), Nat.digitChar (n / 100 % 10),
      Nat.digitChar (n / 10 % 10), Nat.digitChar (n % 10)] := by
  unfold padNum
  rw [if_pos (show n < 10 ^ 4 by omega)]
  show [Nat.digitChar (n / 10 ^ 3 % 10), Nat.digitChar (n / 10 ^ 2 % 10),
    Nat.digitChar (n / 10 ^ 1 % 10), Nat.digitChar (n / 10 ^ 0 % 10)] = _
  have e3 : n / 10 ^ 3 % 10 = n / 1000 := by
    have e : (10 : Nat) ^ 3 = 1000 := by norm_num
    rw [e]; omega
  have e2 : n / 10 ^ 2 % 10 = n / 100 % 10 := by
    have e : (10 : Nat) ^ 2 = 100 := by norm_num
    rw [e]
  have e1 : n / 10 ^ 1 % 10 = n / 10 % 10 := by
    have e : (10 : Nat) ^ 1 = 10 := by norm_num
    rw [e]
  have e0 : n / 10 ^ 0 % 10 = n % 10 := by
    have e : (10 : Nat) ^ 0 = 1 := by norm_num
    rw [e, Nat.div_one]
  rw [e3, e2, e1, e0]

theorem parseNDigits_pad4 {y : Nat} (h : y < 10000) (rest : List Char) :
    parseNDigits 4 (padNum 4 y ++ rest) = some (y, rest) := by
  rw [padNum4_eq h]
  have e1 := digitChar_isDigit (show y / 1000 < 10 by omega)
  have e2 := digitChar_isDigit (show y / 100 % 10 < 10 by omega)
  have e3 := digitChar_isDigit (show y / 10 % 10 < 10 by omega)
  have e4 := digitChar_isDigit (show y % 10 < 10 by omega)
  have d1 := digitVal_digitChar (show y / 1000 < 10 by omega)
  have d2 := digitVal_digitChar (show y / 100 % 10 < 10 by omega)
  have d3 := digitVal_digitChar (show y / 10 % 10 < 10 by omega)
  have d4 := digitVal_digitChar (show y % 10 < 10 by omega)
  simp [parseNDigits, List.take, List.drop, e1, e2, e3, e4, digitsToNatBase,
    d1, d2, d3, d4]
  omega

theorem parseNum2or1_two {α : Type} (ok2 ok1 : Nat → Bool) {v : Nat}
    (hv : v < 100) (hok : ok2 v = true) (rest : List Char)
    (k : Nat → List Char → Option α) {res : α} (hk : k v rest = some res) :
    parseNum2or1 ok2 ok1 (padNum 2 v ++ rest) k = some res := by
  rw [padNum2_eq hv]
  have e1 := digitChar_isDigit (show v / 10 < 10 by omega)
  have e2 := digitChar_isDigit (show v % 10 < 10 by omega)
  have d1 := digitVal_digitChar (show v / 10 < 10 by omega)
  have d2 := digitVal_digitChar (show v % 10 < 10 by omega)
  have hval : digitVal (Nat.digitChar (v / 10)) * 10 +
      digitVal (Nat.digitChar (v % 10)) = v := by
    rw [d1, d2]; omega
  simp [parseNum2or1, e1, e2, hval, hok, hk]

theorem monthAbbrev_matchMonthGo (mo : Nat) (hmo : mo < 12) (rest : List Char) :
    matchMonthGo monthAbbrevs 1 ((monthAbbrevs.getD mo "").toList ++ rest) =
      some (mo + 1, rest) := by
  interval_cases mo <;>
    simp +decide [matchMonthGo, monthAbbrevs, List.take, List.drop]

theorem monthAbbrev_length (mo : Nat) (hmo : mo < 12) :
    (monthAbbrevs.getD mo "").toList.length = 3 := by
  interval_cases mo <;> rfl

theorem monthAbbrev_head (mo : Nat) (hmo : mo < 12) :
    ∃ M0 Mrest, (monthAbbrevs.getD mo "").toList = M0 :: Mrest ∧
      M0.isDigit = false ∧ M0 ≠ 'Z' := by
  interval_cases mo <;> exact ⟨_, _, rfl, by decide, by decide⟩

theorem replaceZ_cons_ne {c : Char} (l : List Char) (h : c ≠ 'Z') :
    replaceZ (c :: l) = c :: replaceZ l := by
  simp [replaceZ, h]

theorem parseNDigits_snd {n : Nat} {cs : List Char} {p : Nat × List Char}
    (h : parseNDigits n cs = some p) : p.2 = cs.drop n := by
  simp [parseNDigits] at h
  obtain ⟨-, h2⟩ := h
  rw [← h2]

theorem fromisoformatModel_none_of_month_nondigit (a1 a2 a3 a4 M0 : Char)
    (rest : List Char) (hM : M0.isDigit = false) :
    fromisoformatModel (a1 :: a2 :: a3 :: a4 :: '-' :: M0 :: rest) = none := by
  cases hp : parseNDigits 4 (a1 :: a2 :: a3 :: a4 :: '-' :: M0 :: rest.take 4) with
  | none => simp [fromisoformatModel, List.take, hp]
  | some p =>
    obtain ⟨v, r⟩ := p
    have h2 : r = '-' :: M0 :: rest.take 4 := by
      have := parseNDigits_snd hp
      simpa [List.drop] using this
    subst h2
    have e2 : parseNDigits 2 (M0 :: rest.take 4) = none := by
      have e : ((M0 :: rest.take 4).take 2).all Char.isDigit = false := by
        simp [List.take, hM]
      simp [parseNDigits, e, hM]
    simp [fromisoformatModel, List.take, hp, expectChar, e2]

theorem dropWhile_eq_self_of_head {cs : List Char}
    (h : ∀ c, cs.head? = some c → isPySpace c = false) :
    cs.dropWhile isPySpace = cs := by
  cases cs with
  | nil => rfl
  | cons c rest =>
    rw [List.dropWhile_cons]
    simp [h c rfl]

theorem pyStripList_eq_self {cs : List Char}
    (h1 : ∀ c, cs.head? = some c → isPySpace c = false)
    (h2 : ∀ c, cs.getLast? = some c → isPySpace c = false) :
    pyStripList cs = cs := by
  unfold pyStripList
  rw [dropWhile_eq_self_of_head h1]
  have e2 : cs.reverse.dropWhile isPySpace = cs.reverse := by
    apply dropWhile_eq_self_of_head
    intro c hc
    apply h2
    rwa [List.head?_reverse] at hc
  rw [e2, List.reverse_reverse]

theorem padNum_length {w n : Nat} (h : n < 10 ^ w) : (padNum w n).length = w := by
  unfold padNum
  rw [if_pos h]
  simp

theorem monthStampChars_length {y mo d h mi sec : Nat} (hmo : mo < 12)
    (hy2 : y ≤ 9999) (hd31 : d ≤ 31) (hh : h ≤ 23) (hmi : mi ≤ 59)
    (hsec : sec ≤ 59) :
    (monthStampChars y mo d h mi sec).length = 20 := by
  have l4 := padNum_length (show y < 10 ^ 4 by omega)
  have l2d := padNum_length (show d < 10 ^ 2 by omega)
  have l2h := padNum_length (show h < 10 ^ 2 by omega)
  have l2mi := padNum_length (show mi < 10 ^ 2 by omega)
  have l2sec := padNum_length (show sec < 10 ^ 2 by omega)
  simp [monthStampChars, l4, l2d, l2h, l2mi, l2sec]
  have hm3 : (monthAbbrevs[mo]?.getD "").length = 3 := by
    interval_cases mo <;> rfl
  omega

theorem daysInMonth_le_31 (y m : Nat) : daysInMonth y m ≤ 31 := by
  unfold daysInMonth
  split_ifs <;> omega

theorem parseYbdTHMS_canonical (y mo d h mi sec : Nat) (tail0 : List Char)
    (hmo : mo < 12) (hy : 1000 ≤ y) (hy2 : y ≤ 9999) (hd : 1 ≤ d)
    (hd31 : d ≤ 31) (hh : h ≤ 23) (hmi : mi ≤ 59) (hsec : sec ≤ 59)
    (hk : (if tail0 = [] then some (y, mo + 1, d, h, mi, sec) else none) =
      some (y, mo + 1, d, h, mi, sec)) :
    parseYbdTHMS (monthStampChars y mo d h mi sec ++ tail0) =
      some (y, mo + 1, d, h, mi, sec) := by
  unfold monthStampChars parseYbdTHMS
  simp only [List.append_assoc, List.cons_append]
  rw [parseNDigits_pad4 (show y < 10000 by omega)]
  simp only [expectChar, if_pos, reduceIte,
    monthAbbrev_matchMonthGo mo hmo]
  refine parseNum2or1_two _ _ (show d < 100 by omega) ?_ _ _ ?_
  · simp only [day2ok, Bool.and_eq_true, decide_eq_true_eq]
    omega
  simp only [reduceIte]
  refine parseNum2or1_two _ _ (show h < 100 by omega) ?_ _ _ ?_
  · simp only [hour2ok, decide_eq_true_eq]
    omega
  simp only [reduceIte]
  refine parseNum2or1_two _ _ (show mi < 100 by omega) ?_ _ _ ?_
  · simp only [minsec2ok, decide_eq_true_eq]
    omega
  simp only [reduceIte]
  refine parseNum2or1_two _ _ (show sec < 100 by omega) ?_ _ _ ?_
  · simp only [minsec2ok, decide_eq_true_eq]
    omega
  exact hk

theorem strptimeYbdTHMS_canonical (y mo d h mi sec : Nat)
    (hmo : mo < 12) (hy : 1000 ≤ y) (hy2 : y ≤ 9999) (hd : 1 ≤ d)
    (hd2 : d ≤ daysInMonth y (mo + 1)) (hh : h ≤ 23) (hmi : mi ≤ 59)
    (hsec : sec ≤ 59) :
    strptimeYbdTHMS (monthStampChars y mo d h mi sec) =
      some ⟨y, mo + 1, d, h, mi, sec, 0, none⟩ := by
  have hd31 : d ≤ 31 := le_trans hd2 (daysInMonth_le_31 y (mo + 1))
  have hp := parseYbdTHMS_canonical y mo d h mi sec [] hmo hy hy2 hd hd31 hh
    hmi hsec (by simp)
  rw [List.append_nil] at hp
  unfold strptimeYbdTHMS
  rw [hp]
  have hv : validDateTime ⟨y, mo + 1, d, h, mi, sec, 0, none⟩ = true := by
    simp [validDateTime]
    omega
  simp [hv]

theorem monthStamp_append_decomp (y mo d h mi sec : Nat) (tz : List Char)
    (M0 : Char) (Mrest : List Char) (hy2 : y ≤ 9999)
    (hM : (monthAbbrevs.getD mo "").toList = M0 :: Mrest) :
    monthStampChars y mo d h mi sec ++ tz =
      Nat.digitChar (y / 1000) :: Nat.digitChar (y / 100 % 10) ::
      Nat.digitChar (y / 10 % 10) :: Nat.digitChar (y % 10) :: '-' :: M0 ::
      (Mrest ++ '-' :: (padNum 2 d ++ 'T' :: (padNum 2 h ++ ':' ::
        (padNum 2 mi ++ ':' :: (padNum 2 sec ++ tz))))) := by
  have hM2 : (monthAbbrevs[mo]?.getD "").data = M0 :: Mrest := by
    simpa using hM
  simp [monthStampChars, padNum4_eq (show y < 10000 by omega), hM2,
    List.append_assoc]

theorem tryMonthAbbrev_monthstamp (y mo d h mi sec : Nat) (tz : List Char)
    (hmo : mo < 12) (hy : 1000 ≤ y) (hy2 : y ≤ 9999) (hd : 1 ≤ d)
    (hd2 : d ≤ daysInMonth y (mo + 1)) (hh : h ≤ 23) (hmi : mi ≤ 59)
    (hsec : sec ≤ 59) :
    tryMonthAbbrev (String.mk (monthStampChars y mo d h mi sec ++ tz)) =
      some (String.mk (strftimeIso ⟨y, mo + 1, d, h, mi, sec, 0, none⟩ ++
        (if 26 ≤ 20 + tz.length ∧ (tz.get? 0 = some '+' ∨ tz.get? 0 = some '-')
         then (if 25 < 20 + tz.length ∧ tz.get? 3 = some ':'
               then tz.take 6
               else tz.take 3 ++ ':' :: (tz.drop 3).take 2)
         else []))) := by
  have hd31 : d ≤ 31 := le_trans hd2 (daysInMonth_le_31 y (mo + 1))
  have hlen : (monthStampChars y mo d h mi sec).length = 20 :=
    monthStampChars_length hmo hy2 hd31 hh hmi hsec
  have htake : (monthStampChars y mo d h mi sec ++ tz).take 20 =
      monthStampChars y mo d h mi sec := by
    rw [← hlen, List.take_left]
  have hdrop20 : (monthStampChars y mo d h mi sec ++ tz).drop 20 = tz := by
    rw [← hlen, List.drop_left]
  have hdrop23 : (monthStampChars y mo d h mi sec ++ tz).drop 23 = tz.drop 3 := by
    rw [show (23 : Nat) = 20 + 3 from rfl, ← List.drop_drop, hdrop20]
  have hget20 : (monthStampChars y mo d h mi sec ++ tz).get? 20 = tz.get? 0 := by
    rw [List.get?_append_right (by omega)]
    simp [hlen]
  have hget23 : (monthStampChars y mo d h mi sec ++ tz).get? 23 = tz.get? 3 := by
    rw [List.get?_append_right (by omega)]
    simp [hlen]
  have hlentot : (monthStampChars y mo d h mi sec ++ tz).length =
      20 + tz.length := by
    simp [hlen]
  unfold tryMonthAbbrev
  rw [show (String.mk (monthStampChars y mo d h mi sec ++ tz)).toList =
    monthStampChars y mo d h mi sec ++ tz from rfl]
  rw [htake, strptimeYbdTHMS_canonical y mo d h mi sec hmo hy hy2 hd hd2 hh
    hmi hsec]
  simp only [Option.map_some']
  rw [hlentot, hget20, hget23, hdrop20, hdrop23]
  by_cases hc1 : 26 ≤ 20 + tz.length ∧ (tz.get? 0 = some '+' ∨ tz.get? 0 = some '-')
  · obtain ⟨hca, hcb⟩ := hc1
    simp only [List.get?_eq_getElem?] at hcb
    simp [hca, hcb]
  · simp only [List.get?_eq_getElem?] at hc1
    simp [hc1]

theorem tryIso_monthstamp_none (y mo d h mi sec : Nat) (tz : List Char)
    (hmo : mo < 12) (hy2 : y ≤ 9999) :
    tryIso (String.mk (monthStampChars y mo d h mi sec ++ tz)) = none := by
  obtain ⟨M0, Mrest, hM, hMdig, hMZ⟩ := monthAbbrev_head mo hmo
  unfold tryIso
  rw [show (String.mk (monthStampChars y mo d h mi sec ++ tz)).toList =
    monthStampChars y mo d h mi sec ++ tz from rfl]
  rw [monthStamp_append_decomp y mo d h mi sec tz M0 Mrest hy2 hM]
  rw [replaceZ_cons_ne _ (digitChar_ne_Z (show y / 1000 < 10 by omega)),
    replaceZ_cons_ne _ (digitChar_ne_Z (show y / 100 % 10 < 10 by omega)),
    replaceZ_cons_ne _ (digitChar_ne_Z (show y / 10 % 10 < 10 by omega)),
    replaceZ_cons_ne _ (digitChar_ne_Z (show y % 10 < 10 by omega)),
    replaceZ_cons_ne _ (show '-' ≠ 'Z' by decide),
    replaceZ_cons_ne _ hMZ]
  rw [fromisoformatModel_none_of_month_nondigit _ _ _ _ _ _ hMdig]
  rfl

theorem monthstamp_append_ne_empty (y mo d h mi sec : Nat) (tz : List Char)
    (hmo : mo < 12) (hy2 : y ≤ 9999) :
    String.mk (monthStampChars y mo d h mi sec ++ tz) ≠ "" := by
  obtain ⟨M0, Mrest, hM, hMdig, hMZ⟩ := monthAbbrev_head mo hmo
  rw [monthStamp_append_decomp y mo d h mi sec tz M0 Mrest hy2 hM]
  intro hcontra
  have : (Nat.digitChar (y / 1000) :: Nat.digitChar (y / 100 % 10) ::
      Nat.digitChar (y / 10 % 10) :: Nat.digitChar (y % 10) :: '-' :: M0 ::
      (Mrest ++ '-' :: (padNum 2 d ++ 'T' :: (padNum 2 h ++ ':' ::
        (padNum 2 mi ++ ':' :: (padNum 2 sec ++ tz)))))) =
      ([] : List Char) := congrArg String.toList hcontra
  simp at this

theorem monthstamp_append_strip (y mo d h mi sec : Nat) (tz : List Char)
    (hmo : mo < 12) (hy : 1000 ≤ y) (hy2 : y ≤ 9999) (htznil : tz ≠ [])
    (htzlast : ∀ c, tz.getLast? = some c → isPySpace c = false) :
    pyStripStr (String.mk (monthStampChars y mo d h mi sec ++ tz)) =
      String.mk (monthStampChars y mo d h mi sec ++ tz) := by
  obtain ⟨M0, Mrest, hM, hMdig, hMZ⟩ := monthAbbrev_head mo hmo
  unfold pyStripStr
  rw [show (String.mk (monthStampChars y mo d h mi sec ++ tz)).toList =
    monthStampChars y mo d h mi sec ++ tz from rfl]
  rw [pyStripList_eq_self]
  · intro c hc
    rw [monthStamp_append_decomp y mo d h mi sec tz M0 Mrest hy2 hM] at hc
    simp at hc
    rw [← hc]
    exact isPySpace_digitChar (show y / 1000 < 10 by omega)
  · intro c hc
    rw [List.getLast?_append_of_ne_nil _ htznil] at hc
    exact htzlast c hc

theorem parse_date_to_iso_monthstamp (y mo d h mi sec : Nat) (tz : List Char)
    (hmo : mo < 12) (hy : 1000 ≤ y) (hy2 : y ≤ 9999) (hd : 1 ≤ d)
    (hd2 : d ≤ daysInMonth y (mo + 1)) (hh : h ≤ 23) (hmi : mi ≤ 59)
    (hsec : sec ≤ 59) (htznil : tz ≠ [])
    (htzlast : ∀ c, tz.getLast? = some c → isPySpace c = false) :
    parse_date_to_iso (.str (String.mk (monthStampChars y mo d h mi sec ++ tz))) =
      String.mk (strftimeIso ⟨y, mo + 1, d, h, mi, sec, 0, none⟩ ++
        (if 26 ≤ 20 + tz.length ∧ (tz.get? 0 = some '+' ∨ tz.get? 0 = some '-')
         then (if 25 < 20 + tz.length ∧ tz.get? 3 = some ':'
               then tz.take 6
               else tz.take 3 ++ ':' :: (tz.drop 3).take 2)
         else [])) := by
  have hne := monthstamp_append_ne_empty y mo d h mi sec tz hmo hy2
  have hstrip := monthstamp_append_strip y mo d h mi sec tz hmo hy hy2 htznil
    htzlast
  simp only [parse_date_to_iso]
  rw [if_neg hne, hstrip, if_neg hne,
    tryIso_monthstamp_none y mo d h mi sec tz hmo hy2,
    tryMonthAbbrev_monthstamp y mo d h mi sec tz hmo hy hy2 hd hd2 hh hmi hsec]

/-- C2 amended: for canonical `YYYY-Mon-DDTHH:MM:SS` inputs (valid calendar
date, year at least 1000) followed by a sign and a colon-separated `HH:MM`
offset, `parse_date_to_iso` emits `YYYY-MM-DDTHH:MM:SS` followed by that
offset; but when the same input ends with a bare `HHMM` offset (total length
25), the offset is dropped entirely, the `len(s) >= 26` guard having failed. -/
theorem C2_month_abbrev_timezone_amended (y mo d h mi sec o1 o2 : Nat)
    (sign : Char) (hy : 1000 ≤ y) (hy2 : y ≤ 9999) (hmo : mo < 12)
    (hd : 1 ≤ d) (hd2 : d ≤ daysInMonth y (mo + 1)) (hh : h ≤ 23)
    (hmi : mi ≤ 59) (hsec : sec ≤ 59) (hsign : sign = '+' ∨ sign = '-')
    (ho1 : o1 ≤ 99) (ho2 : o2 ≤ 99) :
    parse_date_to_iso (.str (String.mk (monthStampChars y mo d h mi sec ++
        (sign :: padNum 2 o1 ++ ':' :: padNum 2 o2)))) =
      String.mk (strftimeIso ⟨y, mo + 1, d, h, mi, sec, 0, none⟩ ++
        (sign :: padNum 2 o1 ++ ':' :: padNum 2 o2)) ∧
    parse_date_to_iso (.str (String.mk (monthStampChars y mo d h mi sec ++
        (sign :: padNum 2 o1 ++ padNum 2 o2)))) =
      String.mk (strftimeIso ⟨y, mo + 1, d, h, mi, sec, 0, none⟩) := by
  have hrw1 := padNum2_eq (show o1 < 100 by omega)
  have hrw2 := padNum2_eq (show o2 < 100 by omega)
  constructor
  · have hlast1 : ∀ c : Char,
        (sign :: padNum 2 o1 ++ ':' :: padNum 2 o2).getLast? = some c →
        isPySpace c = false := by
      intro c hc
      rw [hrw1, hrw2] at hc
      simp at hc
      rw [← hc]
      exact isPySpace_digitChar (show o2 % 10 < 10 by omega)
    rw [parse_date_to_iso_monthstamp y mo d h mi sec _ hmo hy hy2 hd hd2 hh
      hmi hsec (by simp) hlast1]
    congr 1
    congr 1
    rw [hrw1, hrw2]
    rcases hsign with rfl | rfl <;> simp [List.take]
  · have hlast2 : ∀ c : Char,
        (sign :: padNum 2 o1 ++ padNum 2 o2).getLast? = some c →
        isPySpace c = false := by
      intro c hc
      rw [hrw1, hrw2] at hc
      simp at hc
      rw [← hc]
      exact isPySpace_digitChar (show o2 % 10 < 10 by omega)
    rw [parse_date_to_iso_monthstamp y mo d h mi sec _ hmo hy hy2 hd hd2 hh
      hmi hsec (by simp) hlast2]
    rw [hrw1, hrw2]
    simp

/-- C2 witness: the amended theorem at the concrete input families of
`"2026-Feb-01T13:28:27+05:00"` (offset kept) and
`"2026-Feb-01T13:28:27+0500"` (offset dropped). -/
theorem C2_witness :
    parse_date_to_iso (.str (String.mk (monthStampChars 2026 1 1 13 28 27 ++
        ('+' :: padNum 2 5 ++ ':' :: padNum 2 0)))) =
      String.mk (strftimeIso ⟨2026, 2, 1, 13, 28, 27, 0, none⟩ ++
        ('+' :: padNum 2 5 ++ ':' :: padNum 2 0)) ∧
    parse_date_to_iso (.str (String.mk (monthStampChars 2026 1 1 13 28 27 ++
        ('+' :: padNum 2 5 ++ padNum 2 0)))) =
      String.mk (strftimeIso ⟨2026, 2, 1, 13, 28, 27, 0, none⟩) :=
  C2_month_abbrev_timezone_amended 2026 1 1 13 28 27 5 0 '+'
    (by decide) (by decide) (by decide) (by decide) (by decide) (by decide)
    (by decide) (by decide) (by decide) (by decide) (by decide)

example : String.mk (monthStampChars 2026 1 1 13 28 27 ++
    ('+' :: padNum 2 5 ++ ':' :: padNum 2 0)) = "2026-Feb-01T13:28:27+05:00" := by
  decide

example : String.mk (monthStampChars 2026 1 1 13 28 27 ++
    ('+' :: padNum 2 5 ++ padNum 2 0)) = "2026-Feb-01T13:28:27+0500" := by
  decide

example : String.mk (strftimeIso ⟨2026, 2, 1, 13, 28, 27, 0, none⟩) =
    "2026-02-01T13:28:27" := by decide

end Pipeline
